import Mathlib

/-!
Verification development for the dev-browser repository.

The definitions below are shallow embeddings of the TypeScript source:
ordered association lists stand in for JavaScript `Map` objects and plain
objects, `Option` fields stand in for possibly-`undefined` properties, and
JavaScript truthiness tests (`if (x)`) are translated explicitly
(`undefined`, `""` and `0` are falsy).  Effectful operations return the
new state together with a trace of the observable actions they performed.
-/

namespace DevBrowser

/-- First value bound to a key in an association list (JavaScript
`Map.get` / object property read: keys are unique in the source maps, and
the first occurrence is what `get` returns). -/
def lookupKey {α β : Type} [DecidableEq α] : List (α × β) → α → Option β
  | [], _ => none
  | (k, v) :: rest, key => if k = key then some v else lookupKey rest key

/-- Replace the first binding of a key, or append a new binding
(JavaScript `Map.set` / object property write). -/
def setKey {α β : Type} [DecidableEq α] : List (α × β) → α → β → List (α × β)
  | [], key, v => [(key, v)]
  | (k, w) :: rest, key, v =>
    if k = key then (key, v) :: rest else (k, w) :: setKey rest key v

/-- Remove the first binding of a key (JavaScript `Map.delete` /
`delete obj[key]`; source maps have unique keys). -/
def eraseKey {α β : Type} [DecidableEq α] : List (α × β) → α → List (α × β)
  | [], _ => []
  | (k, v) :: rest, key => if k = key then rest else (k, v) :: eraseKey rest key

theorem lookupKey_setKey_self {α β : Type} [DecidableEq α]
    (l : List (α × β)) (k : α) (v : β) : lookupKey (setKey l k v) k = some v := by
  induction l with
  | nil => simp [setKey, lookupKey]
  | cons hd tl ih =>
    by_cases h : hd.1 = k
    · simp [setKey, h, lookupKey]
    · simp [setKey, h, lookupKey, ih]

theorem mem_setKey {α β : Type} [DecidableEq α]
    (l : List (α × β)) (k : α) (v : β) (e : α × β)
    (hmem : e ∈ setKey l k v) : e = (k, v) ∨ e ∈ l := by
  induction l with
  | nil => simp [setKey] at hmem; exact Or.inl hmem
  | cons hd tl ih =>
    by_cases h : hd.1 = k
    · rw [setKey, if_pos h] at hmem
      rcases List.mem_cons.mp hmem with h1 | h1
      · exact Or.inl h1
      · exact Or.inr (List.mem_cons_of_mem _ h1)
    · rw [setKey, if_neg h] at hmem
      rcases List.mem_cons.mp hmem with h1 | h1
      · exact Or.inr (h1 ▸ List.mem_cons_self _ _)
      · rcases ih h1 with h2 | h2
        · exact Or.inl h2
        · exact Or.inr (List.mem_cons_of_mem _ h2)

theorem mem_setKey_of_ne {α β : Type} [DecidableEq α]
    (l : List (α × β)) (k : α) (v : β) (e : α × β)
    (hmem : e ∈ l) (hne : e.1 ≠ k) : e ∈ setKey l k v := by
  induction l with
  | nil => simp at hmem
  | cons hd tl ih =>
    by_cases h : hd.1 = k
    · rw [setKey, if_pos h]
      rcases List.mem_cons.mp hmem with h1 | h1
      · exact absurd (h1 ▸ h) hne
      · exact List.mem_cons_of_mem _ h1
    · rw [setKey, if_neg h]
      rcases List.mem_cons.mp hmem with h1 | h1
      · exact h1 ▸ List.mem_cons_self _ _
      · exact List.mem_cons_of_mem _ (ih h1)

theorem mem_eraseKey_of_ne {α β : Type} [DecidableEq α]
    (l : List (α × β)) (k : α) (e : α × β)
    (hmem : e ∈ l) (hne : e.1 ≠ k) : e ∈ eraseKey l k := by
  induction l with
  | nil => simp at hmem
  | cons hd tl ih =>
    by_cases h : hd.1 = k
    · rw [eraseKey, if_pos h]
      rcases List.mem_cons.mp hmem with h1 | h1
      · exact absurd (h1 ▸ h) hne
      · exact h1
    · rw [eraseKey, if_neg h]
      rcases List.mem_cons.mp hmem with h1 | h1
      · exact h1 ▸ List.mem_cons_self _ _
      · exact List.mem_cons_of_mem _ (ih h1)

theorem mem_eraseKey {α β : Type} [DecidableEq α]
    (l : List (α × β)) (k : α) (e : α × β)
    (hmem : e ∈ eraseKey l k) : e ∈ l := by
  induction l with
  | nil => simp [eraseKey] at hmem
  | cons hd tl ih =>
    by_cases h : hd.1 = k
    · rw [eraseKey, if_pos h] at hmem
      exact List.mem_cons_of_mem _ hmem
    · rw [eraseKey, if_neg h] at hmem
      rcases List.mem_cons.mp hmem with h1 | h1
      · exact h1 ▸ List.mem_cons_self _ _
      · exact List.mem_cons_of_mem _ (ih h1)

theorem not_mem_keys_eraseKey {α β : Type} [DecidableEq α]
    (l : List (α × β)) (k : α) (hnd : (l.map Prod.fst).Nodup) :
    k ∉ (eraseKey l k).map Prod.fst := by
  induction l with
  | nil => simp [eraseKey]
  | cons hd tl ih =>
    simp only [List.map_cons, List.nodup_cons] at hnd
    by_cases h : hd.1 = k
    · rw [eraseKey, if_pos h]
      subst h
      exact fun hc => hnd.1 hc
    · rw [eraseKey, if_neg h]
      intro hc
      simp only [List.map_cons, List.mem_cons] at hc
      rcases hc with h1 | h1
      · exact h h1.symm
      · exact ih hnd.2 h1

theorem lookupKey_none_of_not_mem_keys {α β : Type} [DecidableEq α]
    (l : List (α × β)) (k : α) (hk : k ∉ l.map Prod.fst) :
    lookupKey l k = none := by
  induction l with
  | nil => simp [lookupKey]
  | cons hd tl ih =>
    rw [lookupKey]
    simp only [List.map_cons, List.mem_cons, not_or] at hk
    rw [if_neg (fun hc => hk.1 hc.symm)]
    exact ih hk.2

theorem lookupKey_eraseKey_self {α β : Type} [DecidableEq α]
    (l : List (α × β)) (k : α) (hnd : (l.map Prod.fst).Nodup) :
    lookupKey (eraseKey l k) k = none :=
  lookupKey_none_of_not_mem_keys _ _ (not_mem_keys_eraseKey l k hnd)

theorem lookupKey_mem {α β : Type} [DecidableEq α]
    (l : List (α × β)) (k : α) (v : β) (h : lookupKey l k = some v) : (k, v) ∈ l := by
  induction l with
  | nil => simp [lookupKey] at h
  | cons hd tl ih =>
    rw [lookupKey] at h
    by_cases hk : hd.1 = k
    · rw [if_pos hk] at h
      injection h with h
      exact List.mem_cons.mpr (Or.inl (by rw [← hk, ← h]))
    · rw [if_neg hk] at h
      exact List.mem_cons_of_mem _ (ih h)

namespace Relay

/-- Connection state of a tab entry in the extension's tab table
(`TabInfo.state` in the extension background script). -/
inductive TabState
  | connecting
  | connected
  | error
  deriving DecidableEq, Repr

/-- Entry of the extension's `tabs` map.  `sessionId` and `targetId` are
optional because `onActionClicked` stores `{ state: "connecting" }` (and
`{ state: "error", errorText }`) entries without them. -/
structure TabInfo where
  sessionId : Option String := none
  targetId : Option String := none
  state : TabState
  errorText : Option String := none
  deriving DecidableEq, Repr

/-- The two module-level maps of the background script: `tabs` (native
tab id to `TabInfo`) and `childSessions` (child session id to parent tab
id), both insertion-ordered with unique keys. -/
structure RelayState where
  tabs : List (Nat × TabInfo)
  childSessions : List (String × Nat)
  deriving DecidableEq, Repr

/-- Embeds `getTabBySessionId`: first tab whose `sessionId` strictly
equals the given one. -/
def getTabBySessionId (tabs : List (Nat × TabInfo)) (sessionId : String) :
    Option (Nat × TabInfo) :=
  tabs.find? (fun p => p.2.sessionId = some sessionId)

/-- Embeds `getTabByTargetId`: first tab whose `targetId` strictly equals
the given one. -/
def getTabByTargetId (tabs : List (Nat × TabInfo)) (targetId : String) :
    Option (Nat × TabInfo) :=
  tabs.find? (fun p => p.2.targetId = some targetId)

/-- JavaScript template-literal rendering of a possibly-`undefined`
string (an `undefined` interpolates as the text `undefined`). -/
def showOptStr : Option String → String
  | some s => s
  | none => "undefined"

/-- Incoming `forwardCDPCommand` payload (`msg.params` of
`ExtensionCommandMessage`): the CDP method, an optional session id, and
the optional `targetId` / `url` fields of the embedded `params` object. -/
structure CdpCommand where
  sessionId : Option String := none
  method : String
  paramsTargetId : Option String := none
  paramsUrl : Option String := none
  deriving DecidableEq, Repr

/-- Resolution step 1 (`handleCommand` lines 110-117): if the message
carries a truthy session id, look it up in the tab table.  An
`undefined` or empty session id is falsy and skips the lookup. -/
def resolveBySession (st : RelayState) (sessionId : Option String) :
    Option (Nat × TabInfo) :=
  match sessionId with
  | some s => if s ≠ "" then getTabBySessionId st.tabs s else none
  | none => none

/-- Resolution step 2 (`handleCommand` lines 119-132): look the session
id up in the child-session table; a truthy parent tab id sets
`targetTabId` and `targetTab := tabs.get(parentTabId)` (which can be
`none` if the parent entry is gone). -/
def resolveByChildSession (st : RelayState) (sessionId : Option String) :
    Option Nat × Option TabInfo :=
  match sessionId with
  | some s =>
    if s ≠ "" then
      match lookupKey st.childSessions s with
      | some parentTabId =>
        if parentTabId ≠ 0 then (some parentTabId, lookupKey st.tabs parentTabId)
        else (none, none)
      | none => (none, none)
    else (none, none)
  | none => (none, none)

/-- The full cascading target resolution of `handleCommand`
(lines 107-146), returning the pair `(targetTabId, targetTab)`: session
id against the tab table first, then the child-session table, then a
`targetId` embedded in the command's own params — each later step only
running while `targetTab` is still unset. -/
def resolveTarget (st : RelayState) (sessionId paramsTargetId : Option String) :
    Option Nat × Option TabInfo :=
  let r1 : Option Nat × Option TabInfo :=
    match resolveBySession st sessionId with
    | some it => (some it.1, some it.2)
    | none => (none, none)
  let r2 : Option Nat × Option TabInfo :=
    match r1.2 with
    | some _ => r1
    | none =>
      match resolveByChildSession st sessionId with
      | (some p, t) => (some p, t)
      | (none, _) => r1
  match r2.2 with
  | some _ => r2
  | none =>
    match paramsTargetId with
    | some tid =>
      match getTabByTargetId st.tabs tid with
      | some it => (some it.1, some it.2)
      | none => r2
    | none => r2

/-- Observable outcome of `handleCommand` for a `forwardCDPCommand`
message: forward to a tab's debugger session (with an optional child
session id override), one of the three specially-handled methods, or a
thrown error. -/
inductive CommandOutcome
  | sendCommand (tabId : Nat) (sessionOverride : Option String)
  | runtimeEnable (tabId : Nat)
  | createTarget (url : String)
  | closeTarget (tabId : Nat)
  | closeTargetNotFound
  | throw (message : String)
  deriving DecidableEq, Repr

/-- Embeds `handleCommand` (lines 104-202): resolve the target tab, then
dispatch on the CDP method.  `Runtime.enable`, `Target.createTarget` and
`Target.closeTarget` get bespoke handling; every other method requires a
resolved debuggee and tab, else throws an error naming the method and
session id.  The `debuggee` guard mirrors the JavaScript truthiness test
`targetTabId ? { tabId: targetTabId } : undefined`. -/
def handleCommand (st : RelayState) (msg : CdpCommand) : CommandOutcome :=
  let r := resolveTarget st msg.sessionId msg.paramsTargetId
  let targetTabId := r.1
  let targetTab := r.2
  let debuggee : Option Nat :=
    match targetTabId with
    | some t => if t ≠ 0 then some t else none
    | none => none
  if msg.method = "Runtime.enable" then
    match debuggee with
    | some t => .runtimeEnable t
    | none =>
      .throw ("No debuggee found for Runtime.enable (sessionId: " ++
        showOptStr msg.sessionId ++ ")")
  else if msg.method = "Target.createTarget" then
    .createTarget
      (match msg.paramsUrl with
       | some u => if u ≠ "" then u else "about:blank"
       | none => "about:blank")
  else if msg.method = "Target.closeTarget" then
    match targetTabId with
    | some t => if t ≠ 0 then .closeTarget t else .closeTargetNotFound
    | none => .closeTargetNotFound
  else
    match debuggee, targetTab with
    | some t, some tab =>
      .sendCommand t (if msg.sessionId ≠ tab.sessionId then msg.sessionId else none)
    | _, _ =>
      .throw ("No tab found for method " ++ msg.method ++ " sessionId: " ++
        showOptStr msg.sessionId)

/-- Payload of the synthetic `Target.detachedFromTarget` event sent to
the relay on every detach path. -/
structure DetachEvent where
  sessionId : Option String
  targetId : Option String
  deriving DecidableEq, Repr

/-- Child-session cleanup loop shared by all detach paths: drop every
child session whose parent is the given tab. -/
def removeChildSessionsOf (childSessions : List (String × Nat)) (tabId : Nat) :
    List (String × Nat) :=
  childSessions.filter (fun p => p.2 ≠ tabId)

/-- Observable result of a detach path: the new relay state, the
`Target.detachedFromTarget` events sent to the relay, and whether
`chrome.debugger.detach` was also requested. -/
structure DetachResult where
  state : RelayState
  sent : List DetachEvent
  debuggerDetachRequested : Bool
  deriving DecidableEq, Repr

/-- Embeds `detachTab` (lines 325-355): no-op for an unknown tab;
otherwise announce the detachment, remove the tab entry, prune its child
sessions, and optionally release the debugger attachment. -/
def detachTab (st : RelayState) (tabId : Nat) (shouldDetachDebugger : Bool) :
    DetachResult :=
  match lookupKey st.tabs tabId with
  | none => ⟨st, [], false⟩
  | some tab =>
    ⟨⟨eraseKey st.tabs tabId, removeChildSessionsOf st.childSessions tabId⟩,
      [⟨tab.sessionId, tab.targetId⟩], shouldDetachDebugger⟩

/-- Embeds `onDebuggerDetach` (lines 251-282): ignore a falsy or unknown
tab id; otherwise announce the same detachment event, prune child
sessions and drop the tab entry (the debugger is already gone, so no
detach call is issued). -/
def onDebuggerDetach (st : RelayState) (sourceTabId : Option Nat)
    (_reason : String) : DetachResult :=
  match sourceTabId with
  | none => ⟨st, [], false⟩
  | some tabId =>
    if tabId = 0 then ⟨st, [], false⟩
    else
      match lookupKey st.tabs tabId with
      | none => ⟨st, [], false⟩
      | some tab =>
        ⟨⟨eraseKey st.tabs tabId, removeChildSessionsOf st.childSessions tabId⟩,
          [⟨tab.sessionId, tab.targetId⟩], false⟩

/-- Embeds the `chrome.tabs.onRemoved` listener (lines 635-640): a
tracked tab that the browser closed is detached via `detachTab` with
`shouldDetachDebugger = false`. -/
def onTabRemoved (st : RelayState) (tabId : Nat) : DetachResult :=
  if (lookupKey st.tabs tabId).isSome then detachTab st tabId false
  else ⟨st, [], false⟩

/-- C1: `handleCommand` resolves the target tab in priority order —
(1) a truthy session id matched against the tab table, (2) the session
id matched against the child-session table, routing to the child's
parent tab, (3) a `targetId` embedded in the command's params matched
against the tab table even when the session id matched neither table —
and when no strategy resolves a tab, a command whose method is not one
of the three specially-handled ones throws an error naming the method
and the session id; a resolved non-zero tab is forwarded to that tab's
debugger session. -/
theorem handleCommand_session_resolution (st : RelayState) (msg : CdpCommand) :
    (∀ s i t, msg.sessionId = some s → s ≠ "" →
      getTabBySessionId st.tabs s = some (i, t) →
      resolveTarget st msg.sessionId msg.paramsTargetId = (some i, some t)) ∧
    (∀ s p t, msg.sessionId = some s → s ≠ "" →
      getTabBySessionId st.tabs s = none →
      lookupKey st.childSessions s = some p → p ≠ 0 →
      lookupKey st.tabs p = some t →
      resolveTarget st msg.sessionId msg.paramsTargetId = (some p, some t)) ∧
    (∀ tid i t, resolveBySession st msg.sessionId = none →
      (resolveByChildSession st msg.sessionId).2 = none →
      msg.paramsTargetId = some tid →
      getTabByTargetId st.tabs tid = some (i, t) →
      resolveTarget st msg.sessionId msg.paramsTargetId = (some i, some t)) ∧
    ((resolveTarget st msg.sessionId msg.paramsTargetId).2 = none →
      msg.method ≠ "Runtime.enable" → msg.method ≠ "Target.createTarget" →
      msg.method ≠ "Target.closeTarget" →
      handleCommand st msg = .throw ("No tab found for method " ++ msg.method ++
        " sessionId: " ++ showOptStr msg.sessionId)) ∧
    (∀ i t, resolveTarget st msg.sessionId msg.paramsTargetId = (some i, some t) →
      i ≠ 0 →
      msg.method ≠ "Runtime.enable" → msg.method ≠ "Target.createTarget" →
      msg.method ≠ "Target.closeTarget" →
      handleCommand st msg = .sendCommand i
        (if msg.sessionId ≠ t.sessionId then msg.sessionId else none)) := by
  refine ⟨?_, ?_, ?_, ?_, ?_⟩
  · intro s i t hs hne hfind
    simp [resolveTarget, resolveBySession, hs, hne, hfind]
  · intro s p t hs hne hfind hchild hp htab
    simp [resolveTarget, resolveBySession, resolveByChildSession, hs, hne, hfind,
      hchild, hp, htab]
  · intro tid i t h1 h2 htid hfind
    rcases hc : resolveByChildSession st msg.sessionId with ⟨o, t2⟩
    rw [hc] at h2
    simp only at h2
    subst h2
    cases o <;> simp [resolveTarget, h1, hc, htid, hfind]
  · intro hres h1 h2 h3
    rcases hr : resolveTarget st msg.sessionId msg.paramsTargetId with ⟨o, t2⟩
    rw [hr] at hres
    simp only at hres
    subst hres
    cases o with
    | none => simp [handleCommand, hr, h1, h2, h3]
    | some t =>
      by_cases ht : t = 0 <;> simp [handleCommand, hr, h1, h2, h3, ht]
  · intro i t hres hi h1 h2 h3
    simp [handleCommand, hres, hi, h1, h2, h3]

/-- Witness for `handleCommand_session_resolution`: a relay with tabs 5
and 7 and a child session under tab 7, exercising all five clauses at
concrete inputs. -/
theorem handleCommand_session_resolution_witness :
    (resolveTarget
      ⟨[(5, ⟨some "pw-tab-1", some "T1", .connected, none⟩),
        (7, ⟨some "pw-tab-2", some "T2", .connected, none⟩)], [("child-A", 7)]⟩
      (some "pw-tab-1") none =
      (some 5, some ⟨some "pw-tab-1", some "T1", .connected, none⟩)) ∧
    (resolveTarget
      ⟨[(5, ⟨some "pw-tab-1", some "T1", .connected, none⟩),
        (7, ⟨some "pw-tab-2", some "T2", .connected, none⟩)], [("child-A", 7)]⟩
      (some "child-A") none =
      (some 7, some ⟨some "pw-tab-2", some "T2", .connected, none⟩)) ∧
    (resolveTarget
      ⟨[(5, ⟨some "pw-tab-1", some "T1", .connected, none⟩),
        (7, ⟨some "pw-tab-2", some "T2", .connected, none⟩)], [("child-A", 7)]⟩
      (some "nope") (some "T1") =
      (some 5, some ⟨some "pw-tab-1", some "T1", .connected, none⟩)) ∧
    (handleCommand
      ⟨[(5, ⟨some "pw-tab-1", some "T1", .connected, none⟩),
        (7, ⟨some "pw-tab-2", some "T2", .connected, none⟩)], [("child-A", 7)]⟩
      ⟨some "nope", "Page.navigate", none, none⟩ =
      .throw "No tab found for method Page.navigate sessionId: nope") ∧
    (handleCommand
      ⟨[(5, ⟨some "pw-tab-1", some "T1", .connected, none⟩),
        (7, ⟨some "pw-tab-2", some "T2", .connected, none⟩)], [("child-A", 7)]⟩
      ⟨some "pw-tab-1", "Page.navigate", none, none⟩ =
      .sendCommand 5 none) := by
  refine ⟨?_, ?_, ?_, ?_, ?_⟩
  · exact (handleCommand_session_resolution _
      ⟨some "pw-tab-1", "Page.navigate", none, none⟩).1 "pw-tab-1" 5 _
      rfl (by decide) (by decide)
  · exact (handleCommand_session_resolution _
      ⟨some "child-A", "Page.navigate", none, none⟩).2.1 "child-A" 7 _
      rfl (by decide) (by decide) (by decide) (by decide) (by decide)
  · exact (handleCommand_session_resolution
      ⟨[(5, ⟨some "pw-tab-1", some "T1", .connected, none⟩),
        (7, ⟨some "pw-tab-2", some "T2", .connected, none⟩)], [("child-A", 7)]⟩
      ⟨some "nope", "Page.navigate", some "T1", none⟩).2.2.1 "T1" 5 _
      (by decide) (by decide) rfl (by decide)
  · have := (handleCommand_session_resolution
      ⟨[(5, ⟨some "pw-tab-1", some "T1", .connected, none⟩),
        (7, ⟨some "pw-tab-2", some "T2", .connected, none⟩)], [("child-A", 7)]⟩
      ⟨some "nope", "Page.navigate", none, none⟩).2.2.2.1
      (by decide) (by decide) (by decide) (by decide)
    simpa using this
  · have := (handleCommand_session_resolution
      ⟨[(5, ⟨some "pw-tab-1", some "T1", .connected, none⟩),
        (7, ⟨some "pw-tab-2", some "T2", .connected, none⟩)], [("child-A", 7)]⟩
      ⟨some "pw-tab-1", "Page.navigate", none, none⟩).2.2.2.2 5
      ⟨some "pw-tab-1", some "T1", .connected, none⟩
      (by decide) (by decide) (by decide) (by decide) (by decide)
    simpa using this

/-- C3: the three detachment paths — explicit `detachTab`, the debugger
layer's `onDebuggerDetach`, and tab closure via the `tabs.onRemoved`
listener — produce the same observable effect on an attached tab: one
`Target.detachedFromTarget` event carrying the tab's session id and
target id, removal of the tab entry, and removal of every child session
whose parent was that tab. -/
theorem detach_paths_equivalent (st : RelayState) (tabId : Nat) (tab : TabInfo)
    (flag : Bool) (reason : String)
    (hmem : lookupKey st.tabs tabId = some tab) (hnz : tabId ≠ 0) :
    (detachTab st tabId flag).state =
      ⟨eraseKey st.tabs tabId, removeChildSessionsOf st.childSessions tabId⟩ ∧
    (detachTab st tabId flag).sent = [⟨tab.sessionId, tab.targetId⟩] ∧
    (onDebuggerDetach st (some tabId) reason).state = (detachTab st tabId flag).state ∧
    (onDebuggerDetach st (some tabId) reason).sent = (detachTab st tabId flag).sent ∧
    (onTabRemoved st tabId).state = (detachTab st tabId flag).state ∧
    (onTabRemoved st tabId).sent = (detachTab st tabId flag).sent := by
  simp [detachTab, onDebuggerDetach, onTabRemoved, hmem, hnz]

/-- Witness for `detach_paths_equivalent`: tab 3 with two child sessions,
one of which belongs to tab 3 and is pruned by every path. -/
theorem detach_paths_equivalent_witness :
    (detachTab ⟨[(3, ⟨some "pw-tab-9", some "T9", .connected, none⟩)],
        [("c1", 3), ("c2", 4)]⟩ 3 true).state =
      ⟨[], [("c2", 4)]⟩ ∧
    (onDebuggerDetach ⟨[(3, ⟨some "pw-tab-9", some "T9", .connected, none⟩)],
        [("c1", 3), ("c2", 4)]⟩ (some 3) "target_closed").sent =
      [⟨some "pw-tab-9", some "T9"⟩] := by
  have h := detach_paths_equivalent
    ⟨[(3, ⟨some "pw-tab-9", some "T9", .connected, none⟩)], [("c1", 3), ("c2", 4)]⟩
    3 ⟨some "pw-tab-9", some "T9", .connected, none⟩ true "target_closed"
    (by decide) (by decide)
  exact ⟨by rw [h.1]; decide, by rw [h.2.2.2.1, h.2.1]⟩

end Relay

namespace PageServer

/-- Registry entry of `external-browser.ts`: the live page handle is
owned by the automation driver, so only its CDP `targetId` is modelled
here. -/
structure PageEntry where
  targetId : String
  deriving DecidableEq, Repr

/-- The in-memory `registry` map: page name to entry, insertion ordered
with unique keys. -/
abbrev Registry := List (String × PageEntry)

/-- JSON value found at the `name` field of a `POST /pages` body: absent,
a string, or some non-string value (whose JavaScript truthiness is
irrelevant because the `typeof` check rejects it either way). -/
inductive NameField
  | absent
  | str (s : String)
  | nonString (truthy : Bool)
  deriving DecidableEq, Repr

/-- Successful `POST /pages` response body
`{ wsEndpoint, name, targetId, mode: "launch" }`. -/
structure GetPageResponse where
  wsEndpoint : String
  name : String
  targetId : String
  mode : String
  deriving DecidableEq, Repr

/-- HTTP outcome of `POST /pages`: a 400 with an error body, or a 200
with a `GetPageResponse`. -/
inductive PostPagesResult
  | badRequest (error : String)
  | ok (response : GetPageResponse)
  deriving DecidableEq, Repr

/-- Complete observable effect of one `POST /pages` request: the HTTP
result, the registry afterwards, and whether a new page was created in
the browser context. -/
structure PostPagesOutcome where
  result : PostPagesResult
  registry : Registry
  createdPage : Bool
  deriving DecidableEq, Repr

/-- Embeds the `POST /pages` handler (external-browser.ts lines
280-316).  Validation mirrors the source order: `!name || typeof name
!== "string"` (an empty string is falsy, so it hits this first branch;
the dedicated `length === 0` branch is kept although unreachable), then
the 256-character cap.  A registered name is served from the registry
unchanged; otherwise a page is created, its fresh target id (supplied
here by the `freshTargetId` oracle) is recorded, and a close observer is
installed (not modelled). -/
def postPages (wsEndpoint : String) (reg : Registry) (name : NameField)
    (freshTargetId : String) : PostPagesOutcome :=
  match name with
  | .absent => ⟨.badRequest "name is required and must be a string", reg, false⟩
  | .nonString _ => ⟨.badRequest "name is required and must be a string", reg, false⟩
  | .str s =>
    if s = "" then ⟨.badRequest "name is required and must be a string", reg, false⟩
    else if s.length = 0 then ⟨.badRequest "name cannot be empty", reg, false⟩
    else if s.length > 256 then
      ⟨.badRequest "name must be 256 characters or less", reg, false⟩
    else
      match lookupKey reg s with
      | some entry => ⟨.ok ⟨wsEndpoint, s, entry.targetId, "launch"⟩, reg, false⟩
      | none =>
        ⟨.ok ⟨wsEndpoint, s, freshTargetId, "launch"⟩,
          setKey reg s ⟨freshTargetId⟩, true⟩

/-- HTTP outcome of `DELETE /pages/:name`: `{ success: true }` or a 404
with `{ error: "page not found" }`. -/
inductive DeleteResult
  | success
  | notFound (error : String)
  deriving DecidableEq, Repr

/-- Complete observable effect of one `DELETE /pages/:name` request: the
HTTP result, the registry afterwards, and the target id of the page that
was closed (if any). -/
structure DeleteOutcome where
  result : DeleteResult
  registry : Registry
  closedPage : Option String
  deriving DecidableEq, Repr

/-- Embeds the `DELETE /pages/:name` handler (external-browser.ts lines
319-331); `name` is the URL-decoded route parameter.  A registered name
has its page closed and its entry deleted; an unknown name yields the
404 body. -/
def deletePage (reg : Registry) (name : String) : DeleteOutcome :=
  match lookupKey reg name with
  | some entry => ⟨.success, eraseKey reg name, some entry.targetId⟩
  | none => ⟨.notFound "page not found", reg, none⟩

/-- Embeds the `GET /pages` handler (external-browser.ts lines 272-277):
the list of registered names. -/
def listPages (reg : Registry) : List String := reg.map Prod.fst

theorem length_ne_zero_of_ne_empty (s : String) (h : s ≠ "") : s.length ≠ 0 := by
  intro h0
  apply h
  have hd : s.data = [] := by
    have hl := String.length_data s
    rw [h0] at hl
    exact List.length_eq_zero.mp hl
  exact String.ext hd

/-- C2: a `POST /pages` request for an already-registered valid name
returns the stored entry's target id without creating a page and without
changing the registry; consequently two consecutive create-or-get calls
with the same name return the same target id and the second call leaves
the registry untouched (so its size does not grow). -/
theorem postPages_idempotent_reuse (ws fresh1 fresh2 : String) (reg : Registry)
    (s : String) (hne : s ≠ "") (hlen : s.length ≤ 256) :
    (∀ entry, lookupKey reg s = some entry →
      postPages ws reg (.str s) fresh1 =
        ⟨.ok ⟨ws, s, entry.targetId, "launch"⟩, reg, false⟩) ∧
    ((postPages ws (postPages ws reg (.str s) fresh1).registry (.str s) fresh2).registry =
      (postPages ws reg (.str s) fresh1).registry ∧
     (postPages ws (postPages ws reg (.str s) fresh1).registry (.str s) fresh2).createdPage =
      false ∧
     ∃ tid,
       (postPages ws reg (.str s) fresh1).result = .ok ⟨ws, s, tid, "launch"⟩ ∧
       (postPages ws (postPages ws reg (.str s) fresh1).registry (.str s) fresh2).result =
        .ok ⟨ws, s, tid, "launch"⟩) := by
  have hz : ¬ s.length = 0 := length_ne_zero_of_ne_empty s hne
  have hgt : ¬ s.length > 256 := by omega
  constructor
  · intro entry h
    simp [postPages, hne, hz, hgt, h]
  · cases hlook : lookupKey reg s with
    | some entry =>
      refine ⟨?_, ?_, entry.targetId, ?_, ?_⟩ <;>
        simp [postPages, hne, hz, hgt, hlook]
    | none =>
      have h2 : lookupKey (setKey reg s (⟨fresh1⟩ : PageEntry)) s = some ⟨fresh1⟩ :=
        lookupKey_setKey_self reg s ⟨fresh1⟩
      refine ⟨?_, ?_, fresh1, ?_, ?_⟩ <;>
        simp [postPages, hne, hz, hgt, hlook, h2]

/-- Witness for `postPages_idempotent_reuse`: name `"a"` already
registered with target `"T1"`; the call returns `"T1"` and leaves the
one-entry registry unchanged. -/
theorem postPages_idempotent_reuse_witness :
    postPages "ws" [("a", ⟨"T1"⟩)] (.str "a") "Tfresh" =
      ⟨.ok ⟨"ws", "a", "T1", "launch"⟩, [("a", ⟨"T1"⟩)], false⟩ ∧
    (postPages "ws"
      (postPages "ws" [] (.str "a") "Tfresh").registry (.str "a") "Tother").result =
      .ok ⟨"ws", "a", "Tfresh", "launch"⟩ := by
  constructor
  · exact (postPages_idempotent_reuse "ws" "Tfresh" "Tfresh" [("a", ⟨"T1"⟩)] "a"
      (by decide) (by decide)).1 ⟨"T1"⟩ (by decide)
  · have h := (postPages_idempotent_reuse "ws" "Tfresh" "Tother" [] "a"
      (by decide) (by decide)).2
    rcases h.2.2 with ⟨tid, h1, h2⟩
    have : tid = "Tfresh" := by
      have : (postPages "ws" [] (.str "a") "Tfresh").result =
          .ok ⟨"ws", "a", "Tfresh", "launch"⟩ := by decide
      rw [this] at h1
      injection h1 with h1
      injection h1
      simp_all
    rw [h2, this]

/-- C8: `POST /pages` validation — a missing name, a non-string name, an
empty name and a name longer than 256 characters are each rejected with
a 400 body and the registry untouched, while a 256-character name passes
validation and is accepted. -/
theorem postPages_name_validation (ws fresh : String) (reg : Registry) :
    (postPages ws reg .absent fresh =
      ⟨.badRequest "name is required and must be a string", reg, false⟩) ∧
    (∀ b, postPages ws reg (.nonString b) fresh =
      ⟨.badRequest "name is required and must be a string", reg, false⟩) ∧
    (postPages ws reg (.str "") fresh =
      ⟨.badRequest "name is required and must be a string", reg, false⟩) ∧
    (∀ s : String, 257 ≤ s.length →
      postPages ws reg (.str s) fresh =
        ⟨.badRequest "name must be 256 characters or less", reg, false⟩) ∧
    (∀ s : String, s.length = 256 →
      ∃ resp, (postPages ws reg (.str s) fresh).result = .ok resp ∧ resp.name = s) := by
  refine ⟨by simp [postPages], fun b => by simp [postPages], by simp [postPages],
    ?_, ?_⟩
  · intro s hlen
    have hne : s ≠ "" := by
      intro hc
      rw [hc] at hlen
      simp [String.length] at hlen
    have hz : ¬ s.length = 0 := by omega
    have hgt : s.length > 256 := by omega
    simp [postPages, hne, hz, hgt]
  · intro s hlen
    have hne : s ≠ "" := by
      intro hc
      rw [hc] at hlen
      simp [String.length] at hlen
    have hz : ¬ s.length = 0 := by omega
    have hgt : ¬ s.length > 256 := by omega
    cases hlook : lookupKey reg s with
    | some entry =>
      exact ⟨⟨ws, s, entry.targetId, "launch"⟩,
        by simp [postPages, hne, hz, hgt, hlook], rfl⟩
    | none =>
      exact ⟨⟨ws, s, fresh, "launch"⟩,
        by simp [postPages, hne, hz, hgt, hlook], rfl⟩

set_option maxRecDepth 8000 in
/-- Witness for `postPages_name_validation`: a 257-character name is
rejected with the length error and an empty registry stays empty, and a
256-character name is accepted. -/
theorem postPages_name_validation_witness :
    postPages "ws" [] (.str (String.mk (List.replicate 257 'a'))) "T" =
      ⟨.badRequest "name must be 256 characters or less", [], false⟩ ∧
    ∃ resp,
      (postPages "ws" [] (.str (String.mk (List.replicate 256 'a'))) "T").result =
        .ok resp ∧ resp.name = String.mk (List.replicate 256 'a') := by
  constructor
  · exact (postPages_name_validation "ws" "T" []).2.2.2.1 _ (by decide)
  · exact (postPages_name_validation "ws" "T" []).2.2.2.2 _ (by decide)

/-- C9: `DELETE /pages/:name` on the URL-decoded name either closes the
registered page, removes the name and answers `{ success: true }`, or
answers 404 `{ error: "page not found" }` for an unknown name; after a
successful close the page listing excludes the name and a second delete
of the same name is a 404. -/
theorem deletePage_close_semantics (reg : Registry) (name : String) :
    (∀ entry, lookupKey reg name = some entry →
      deletePage reg name = ⟨.success, eraseKey reg name, some entry.targetId⟩ ∧
      ((listPages reg).Nodup →
        name ∉ listPages (eraseKey reg name) ∧
        deletePage (eraseKey reg name) name =
          ⟨.notFound "page not found", eraseKey reg name, none⟩)) ∧
    (lookupKey reg name = none →
      deletePage reg name = ⟨.notFound "page not found", reg, none⟩) := by
  constructor
  · intro entry h
    refine ⟨by simp [deletePage, h], ?_⟩
    intro hnd
    simp only [listPages] at hnd
    have hnone := lookupKey_eraseKey_self reg name hnd
    refine ⟨?_, by simp [deletePage, hnone]⟩
    simp only [listPages]
    exact not_mem_keys_eraseKey reg name hnd
  · intro h
    simp [deletePage, h]

/-- Witness for `deletePage_close_semantics`: registry with the single
page `"a"`; deleting it succeeds and empties the listing, deleting it
again is a 404. -/
theorem deletePage_close_semantics_witness :
    deletePage [("a", ⟨"T1"⟩)] "a" = ⟨.success, [], some "T1"⟩ ∧
    "a" ∉ listPages (eraseKey [("a", (⟨"T1"⟩ : PageEntry))] "a") ∧
    deletePage (eraseKey [("a", (⟨"T1"⟩ : PageEntry))] "a") "a" =
      ⟨.notFound "page not found", eraseKey [("a", (⟨"T1"⟩ : PageEntry))] "a", none⟩ := by
  have h := (deletePage_close_semantics [("a", ⟨"T1"⟩)] "a").1 ⟨"T1"⟩ (by decide)
  have h2 := h.2 (by decide)
  refine ⟨?_, h2.1, h2.2⟩
  rw [h.1]
  decide

end PageServer

namespace Config

/-- Server mode recorded in the registry (`ServerInfo.mode`). -/
inductive ServerMode
  | standalone
  | external
  deriving DecidableEq, Repr

/-- Embeds the persisted `ServerInfo` record of config.ts.  `startedAt`
is modelled as the epoch-milliseconds value that
`new Date(info.startedAt).getTime()` recovers from the stored ISO
string. -/
structure ServerInfo where
  pid : Nat
  cdpPort : Option Nat := none
  browserPid : Option Nat := none
  mode : ServerMode
  startedAt : Nat
  deriving DecidableEq, Repr

/-- Contents of `active-servers.json`: a JSON object keyed by the HTTP
port rendered as a string. -/
abbrev ServersFile := List (String × ServerInfo)

/-- Embeds `cleanupStaleEntries` (config.ts lines 494-502): keep exactly
the entries whose pid exists.  `alive` stands for `processExists`
(`process.kill(pid, 0)` succeeding). -/
def cleanupStaleEntries (alive : Nat → Bool) (servers : ServersFile) : ServersFile :=
  servers.filter (fun e => alive e.2.pid)

/-- Optional fields of `registerServer`. -/
structure RegisterOptions where
  cdpPort : Option Nat := none
  browserPid : Option Nat := none
  mode : Option ServerMode := none
  deriving DecidableEq, Repr

/-- Embeds `registerServer` (config.ts lines 508-531): load the file,
prune stale entries, then write this server's entry under its port key
(replacing any previous entry for that port) and save.  Returns the
saved file. -/
def registerServer (alive : Nat → Bool) (file : ServersFile) (port pid : Nat)
    (options : RegisterOptions) (now : Nat) : ServersFile :=
  let servers := cleanupStaleEntries alive file
  setKey servers (toString port)
    ⟨pid, options.cdpPort, options.browserPid, options.mode.getD .standalone, now⟩

/-- Embeds `unregisterServer` (config.ts lines 536-542): delete this
port's entry, prune stale entries, save, and return the saved file
together with the remaining-entry count. -/
def unregisterServer (alive : Nat → Bool) (file : ServersFile) (port : Nat) :
    ServersFile × Nat :=
  let servers := cleanupStaleEntries alive (eraseKey file (toString port))
  (servers, servers.length)

/-- Embeds `getActiveServerCount` (config.ts lines 547-551): count of
live entries; the file itself is not rewritten. -/
def getActiveServerCount (alive : Nat → Bool) (file : ServersFile) : Nat :=
  (cleanupStaleEntries alive file).length

/-- Embeds `getMostRecentServer` (config.ts lines 698-719): prune stale
entries (saving the cleaned file back only when pruning removed
something — the saved content is the cleaned list either way), then pick
the entry with the strictly largest `startedAt`.  Returns the picked
entry (still keyed by its port string) and the persisted file. -/
def getMostRecentServer (alive : Nat → Bool) (file : ServersFile) :
    Option (String × ServerInfo) × ServersFile :=
  let cleaned := cleanupStaleEntries alive file
  let saved := if file.length ≠ cleaned.length then cleaned else file
  let pick := cleaned.foldl
    (fun (acc : Option (String × ServerInfo) × Nat) e =>
      if e.2.startedAt > acc.2 then (some e, e.2.startedAt) else acc)
    (none, 0)
  (pick.1, saved)

/-- Embeds `killStaleServers` (config.ts lines 725-743): delete every
entry whose pid no longer exists, save when anything was removed (when
nothing was removed the file already equals the filtered list), and
return the file together with the number of removed entries. -/
def killStaleServers (alive : Nat → Bool) (file : ServersFile) : ServersFile × Nat :=
  let remaining := file.filter (fun e => alive e.2.pid)
  (remaining, file.length - remaining.length)

/-- Orphan report of `detectOrphanedBrowsers`. -/
structure OrphanedBrowser where
  cdpPort : Nat
  pid : Nat
  deriving DecidableEq, Repr

/-- The `activeCdpPorts` membership test of `detectOrphanedBrowsers`:
some live (pid-checked) entry has a truthy `cdpPort` equal to the given
port. -/
def claimedByLiveEntry (alive : Nat → Bool) (file : ServersFile) (port : Nat) : Bool :=
  (cleanupStaleEntries alive file).any (fun e =>
    match e.2.cdpPort with
    | some c => c ≠ 0 && c = port
    | none => false)

/-- Default candidate CDP ports of `detectOrphanedBrowsers`. -/
def defaultCdpPorts : List Nat := [9223, 9225, 9227, 9229, 9231]

/-- Embeds `detectOrphanedBrowsers` (config.ts lines 594-624): for each
candidate port not claimed by a live registry entry, report
`{cdpPort, pid}` when a process listens on it.  `listening` stands for
`getProcessOnPort` (the first pid `lsof -ti:port` prints, or none). -/
def detectOrphanedBrowsers (alive : Nat → Bool) (listening : Nat → Option Nat)
    (file : ServersFile) (cdpPorts : Option (List Nat)) : List OrphanedBrowser :=
  let portsToCheck := cdpPorts.getD defaultCdpPorts
  portsToCheck.filterMap (fun p =>
    if claimedByLiveEntry alive file p then none
    else (listening p).map (fun pid => OrphanedBrowser.mk p pid))

theorem all_of_filter_length_eq {α : Type} (p : α → Bool) (l : List α)
    (h : (l.filter p).length = l.length) : ∀ a ∈ l, p a = true := by
  induction l with
  | nil => simp
  | cons hd tl ih =>
    by_cases hp : p hd
    · intro a ha
      rcases List.mem_cons.mp ha with h1 | h1
      · exact h1 ▸ hp
      · refine ih ?_ a h1
        rw [List.filter_cons, if_pos hp] at h
        simpa using h
    · exfalso
      have hle := List.length_filter_le p tl
      rw [List.filter_cons, if_neg (by simpa using hp)] at h
      simp at h
      omega

theorem pick_mem_of_foldl (l : List (String × ServerInfo)) :
    ∀ (acc : Option (String × ServerInfo) × Nat) (e : String × ServerInfo),
      (l.foldl
        (fun acc e => if e.2.startedAt > acc.2 then (some e, e.2.startedAt) else acc)
        acc).1 = some e →
      acc.1 = some e ∨ e ∈ l := by
  induction l with
  | nil => intro acc e h; exact Or.inl h
  | cons hd tl ih =>
    intro acc e h
    rw [List.foldl_cons] at h
    by_cases hc : hd.2.startedAt > acc.2
    · rw [if_pos hc] at h
      rcases ih _ e h with h1 | h1
      · simp only [Option.some.injEq] at h1
        exact Or.inr (h1 ▸ List.mem_cons_self _ _)
      · exact Or.inr (List.mem_cons_of_mem _ h1)
    · rw [if_neg hc] at h
      rcases ih _ e h with h1 | h1
      · exact Or.inl h1
      · exact Or.inr (List.mem_cons_of_mem _ h1)

/-- C5 counterexample: the claim "every entry whose pid exists is
retained unchanged" fails for `unregisterServer`, whose purpose is to
delete its own port's entry even though that entry's pid is alive: with
a registry holding the single live entry for port 19222,
`unregisterServer` on port 19222 removes it. -/
theorem registry_pruning_counterexample :
    (fun _ : Nat => true) 100 = true ∧
    ("19222", (⟨100, none, none, .external, 5⟩ : ServerInfo)) ∈
      ([("19222", ⟨100, none, none, .external, 5⟩)] : ServersFile) ∧
    ("19222", (⟨100, none, none, .external, 5⟩ : ServerInfo)) ∉
      (unregisterServer (fun _ => true)
        [("19222", ⟨100, none, none, .external, 5⟩)] 19222).1 :=
  ⟨rfl, by decide, by decide⟩

/-- C5 (amended): after any registry read or write operation, every
entry whose pid does not exist is absent from the operation's resulting
registry (and persisted file), and every entry whose pid exists is
retained unchanged — except the entry at the port targeted by
`registerServer` (overwritten with the new registration) or
`unregisterServer` (removed); for `registerServer` the no-dead-entries
guarantee additionally assumes the registered pid itself is alive. -/
theorem registry_pruning_amended (alive : Nat → Bool) (file : ServersFile)
    (port pid : Nat) (options : RegisterOptions) (now : Nat) :
    (∀ k info, (k, info) ∈ cleanupStaleEntries alive file ↔
      ((k, info) ∈ file ∧ alive info.pid = true)) ∧
    (alive pid = true → ∀ k info,
      (k, info) ∈ registerServer alive file port pid options now →
      alive info.pid = true) ∧
    (∀ k info, (k, info) ∈ file → alive info.pid = true → k ≠ toString port →
      (k, info) ∈ registerServer alive file port pid options now) ∧
    (∀ k info, (k, info) ∈ (unregisterServer alive file port).1 →
      alive info.pid = true) ∧
    (∀ k info, (k, info) ∈ file → alive info.pid = true → k ≠ toString port →
      (k, info) ∈ (unregisterServer alive file port).1) ∧
    (getActiveServerCount alive file = (cleanupStaleEntries alive file).length) ∧
    (∀ k info, (k, info) ∈ (getMostRecentServer alive file).2 →
      alive info.pid = true) ∧
    (∀ k info, (k, info) ∈ file → alive info.pid = true →
      (k, info) ∈ (getMostRecentServer alive file).2) ∧
    (∀ e, (getMostRecentServer alive file).1 = some e → alive e.2.pid = true) ∧
    (∀ k info, (k, info) ∈ (killStaleServers alive file).1 ↔
      ((k, info) ∈ file ∧ alive info.pid = true)) := by
  refine ⟨?_, ?_, ?_, ?_, ?_, rfl, ?_, ?_, ?_, ?_⟩
  · intro k info
    exact List.mem_filter
  · intro halive k info hmem
    rcases mem_setKey _ _ _ _ hmem with h1 | h1
    · injection h1 with _ h1
      rw [h1]
      exact halive
    · exact (List.mem_filter.mp h1).2
  · intro k info hmem halive hne
    exact mem_setKey_of_ne _ _ _ _ (List.mem_filter.mpr ⟨hmem, halive⟩) hne
  · intro k info hmem
    exact (List.mem_filter.mp hmem).2
  · intro k info hmem halive hne
    exact List.mem_filter.mpr ⟨mem_eraseKey_of_ne _ _ _ hmem hne, halive⟩
  · intro k info hmem
    simp only [getMostRecentServer] at hmem
    by_cases hlen : file.length ≠ (cleanupStaleEntries alive file).length
    · rw [if_pos hlen] at hmem
      exact (List.mem_filter.mp hmem).2
    · rw [if_neg hlen] at hmem
      push_neg at hlen
      exact all_of_filter_length_eq _ file hlen.symm _ hmem
  · intro k info hmem halive
    simp only [getMostRecentServer]
    by_cases hlen : file.length ≠ (cleanupStaleEntries alive file).length
    · rw [if_pos hlen]
      exact List.mem_filter.mpr ⟨hmem, halive⟩
    · rw [if_neg hlen]
      exact hmem
  · intro e hpick
    simp only [getMostRecentServer] at hpick
    rcases pick_mem_of_foldl _ _ _ hpick with h1 | h1
    · exact absurd h1 (by simp)
    · exact (List.mem_filter.mp h1).2
  · intro k info
    exact List.mem_filter

/-- Witness for `registry_pruning_amended`: liveness predicate keeping
pid 100 and rejecting pid 200; the dead entry is pruned by every
operation, the live entry at another port survives `registerServer` and
`unregisterServer`, and the picked most-recent server is the live one. -/
theorem registry_pruning_amended_witness :
    (("2", (⟨200, none, none, .standalone, 9⟩ : ServerInfo)) ∉
      cleanupStaleEntries (fun p => decide (p < 150))
        [("1", ⟨100, none, none, .external, 5⟩),
         ("2", ⟨200, none, none, .standalone, 9⟩)]) ∧
    (("1", (⟨100, none, none, .external, 5⟩ : ServerInfo)) ∈
      registerServer (fun p => decide (p < 150))
        [("1", ⟨100, none, none, .external, 5⟩),
         ("2", ⟨200, none, none, .standalone, 9⟩)] 3 120 ⟨some 9223, none, some .external⟩ 7) ∧
    (("1", (⟨100, none, none, .external, 5⟩ : ServerInfo)) ∈
      (unregisterServer (fun p => decide (p < 150))
        [("1", ⟨100, none, none, .external, 5⟩),
         ("2", ⟨200, none, none, .standalone, 9⟩)] 2).1) ∧
    (∀ e, (getMostRecentServer (fun p => decide (p < 150))
        [("1", ⟨100, none, none, .external, 5⟩),
         ("2", ⟨200, none, none, .standalone, 9⟩)]).1 = some e →
      decide (e.2.pid < 150) = true) := by
  have h := registry_pruning_amended (fun p => decide (p < 150))
    [("1", ⟨100, none, none, .external, 5⟩),
     ("2", ⟨200, none, none, .standalone, 9⟩)]
    3 120 ⟨some 9223, none, some .external⟩ 7
  have h2 := registry_pruning_amended (fun p => decide (p < 150))
    [("1", ⟨100, none, none, .external, 5⟩),
     ("2", ⟨200, none, none, .standalone, 9⟩)]
    2 120 ⟨some 9223, none, some .external⟩ 7
  refine ⟨?_, ?_, ?_, fun e he => h.2.2.2.2.2.2.2.2.1 e he⟩
  · intro hc
    have := (h.1 "2" ⟨200, none, none, .standalone, 9⟩).mp hc
    simpa using this.2
  · exact h.2.2.1 "1" ⟨100, none, none, .external, 5⟩ (by decide) (by decide) (by decide)
  · exact h2.2.2.2.2.1 "1" ⟨100, none, none, .external, 5⟩ (by decide) (by decide)
      (by decide)

/-- C6: `detectOrphanedBrowsers` reports `{cdpPort, pid}` exactly when
the port is among the candidate ports (caller-supplied or default), a
process listens on it, and no live (pid-checked) registry entry claims
that cdp port; in particular a port claimed by a live entry is never
reported, while a port claimed only by dead-pid entries remains
eligible. -/
theorem detectOrphanedBrowsers_characterization (alive : Nat → Bool)
    (listening : Nat → Option Nat) (file : ServersFile)
    (cdpPorts : Option (List Nat)) (p pid : Nat) :
    OrphanedBrowser.mk p pid ∈ detectOrphanedBrowsers alive listening file cdpPorts ↔
      (p ∈ cdpPorts.getD defaultCdpPorts ∧ listening p = some pid ∧
        claimedByLiveEntry alive file p = false) := by
  simp only [detectOrphanedBrowsers, List.mem_filterMap]
  constructor
  · rintro ⟨q, hq, hfq⟩
    by_cases hc : claimedByLiveEntry alive file q
    · simp [hc] at hfq
    · rw [if_neg (by simp [hc])] at hfq
      cases hl : listening q with
      | none => rw [hl] at hfq; simp at hfq
      | some pd =>
        rw [hl] at hfq
        simp [OrphanedBrowser.mk.injEq] at hfq
        obtain ⟨hqp, hpd⟩ := hfq
        subst hqp
        subst hpd
        exact ⟨hq, hl, by simp [hc]⟩
  · rintro ⟨hmem, hl, hc⟩
    exact ⟨p, hmem, by simp [hc, hl]⟩

end Config

namespace Ports
/-- The `portRange` configuration `{start, end, step}`; the exclusive
bound `end` is named `stop` here because `end` is reserved. -/
structure PortRange where
  start : Nat
  stop : Nat
  step : Nat
  deriving DecidableEq, Repr

/-- Embeds `isPortAvailable` (config.ts lines 389-413): a port is free
exactly when binding the default (IPv6) address succeeds and binding the
explicit IPv4 wildcard `0.0.0.0` also succeeds.  `bindDefault` and
`bindIPv4` stand for the outcomes of the two `server.listen` probes. -/
def isPortAvailable (bindDefault bindIPv4 : Nat → Bool) (port : Nat) : Bool :=
  bindDefault port && bindIPv4 port

/-- The `for (let port = start; port < end; port += step)` loop of
`findAvailablePort`, written with explicit fuel standing for the loop
variant `stop - port` (which strictly decreases whenever `0 < step`;
with `step = 0` and an occupied `start` the source loop would never
terminate, a case excluded by every theorem below —
`findPortLoop_complete` shows the fuel used by `findAvailablePort` is
never the reason a scan fails). -/
def findPortLoop (avail : Nat → Bool) (stop step : Nat) : Nat → Nat → Option Nat
  | 0, _ => none
  | fuel + 1, port =>
    if port < stop then
      if avail port then some port else findPortLoop avail stop step fuel (port + step)
    else none

/-- The exhaustion error thrown by `findAvailablePort`, listing the
scanned range. -/
def exhaustionMessage (start stop step : Nat) : String :=
  "No available ports in range " ++ toString start ++ "-" ++ toString stop ++
    " (step " ++ toString step ++ "). Too many dev-browser servers may be running. " ++
    "Check ~/.dev-browser/active-servers.json for active servers."

/-- Embeds `findAvailablePort` (config.ts lines 419-434): scan the range
and return the first free port, or throw the exhaustion error. -/
def findAvailablePort (avail : Nat → Bool) (r : PortRange) : Except String Nat :=
  match findPortLoop avail r.stop r.step (r.stop - r.start) r.start with
  | some p => .ok p
  | none => .error (exhaustionMessage r.start r.stop r.step)

theorem findPortLoop_sound (avail : Nat → Bool) (stop step : Nat) :
    ∀ fuel port p, findPortLoop avail stop step fuel port = some p →
      ∃ k, p = port + k * step ∧ p < stop ∧ avail p = true ∧
        ∀ j < k, avail (port + j * step) = false := by
  intro fuel
  induction fuel with
  | zero => intro port p h; exact absurd h (by simp [findPortLoop])
  | succ n ih =>
    intro port p h
    rw [findPortLoop] at h
    by_cases hg : port < stop
    · rw [if_pos hg] at h
      by_cases ha : avail port
      · rw [if_pos ha] at h
        injection h with h
        subst h
        exact ⟨0, by omega, hg, ha, by omega⟩
      · rw [if_neg ha] at h
        obtain ⟨k, hk1, hk2, hk3, hk4⟩ := ih (port + step) p h
        refine ⟨k + 1, by rw [hk1]; ring, hk2, hk3, ?_⟩
        intro j hj
        cases j with
        | zero => simpa using (Bool.not_eq_true _).mp ha
        | succ j2 =>
          have hrec := hk4 j2 (by omega)
          have harith : port + step + j2 * step = port + (j2 + 1) * step := by ring
          rw [harith] at hrec
          exact hrec
    · rw [if_neg hg] at h
      exact absurd h (by simp)

theorem findPortLoop_complete (avail : Nat → Bool) (stop step : Nat) :
    ∀ fuel port,
      (∀ k, port + k * step < stop → avail (port + k * step) = false) →
      findPortLoop avail stop step fuel port = none := by
  intro fuel
  induction fuel with
  | zero => intro port _; rfl
  | succ n ih =>
    intro port hall
    rw [findPortLoop]
    by_cases hg : port < stop
    · rw [if_pos hg]
      have h0 := hall 0 (by simpa using hg)
      simp only [Nat.zero_mul, Nat.add_zero] at h0
      rw [if_neg (by simp [h0])]
      refine ih (port + step) ?_
      intro k hk
      have harith : port + step + k * step = port + (k + 1) * step := by ring
      rw [harith] at hk ⊢
      exact hall (k + 1) hk
    · rw [if_neg hg]

theorem findPortLoop_none_sound (avail : Nat → Bool) (stop step : Nat)
    (hstep : 0 < step) :
    ∀ fuel port, stop - port ≤ fuel →
      findPortLoop avail stop step fuel port = none →
      ∀ k, port + k * step < stop → avail (port + k * step) = false := by
  intro fuel
  induction fuel with
  | zero =>
    intro port hle _ k hk
    exact absurd hk (by omega)
  | succ n ih =>
    intro port hle h k hk
    rw [findPortLoop] at h
    by_cases hg : port < stop
    · rw [if_pos hg] at h
      by_cases ha : avail port
      · rw [if_pos ha] at h
        exact absurd h (by simp)
      · rw [if_neg ha] at h
        cases k with
        | zero => simpa using (Bool.not_eq_true _).mp ha
        | succ k2 =>
          have harith : port + (k2 + 1) * step = port + step + k2 * step := by ring
          rw [harith] at hk ⊢
          exact ih (port + step) (by omega) h k2 hk
    · exact absurd hk (by omega)

/-- C7: `findAvailablePort` scans candidates `start, start+step, ...`
below `end`, probing each with both binds, and returns the first
candidate where both binds succeed; when every candidate in the range is
taken it throws the exhaustion error listing the scanned range
`start-end`. -/
theorem findAvailablePort_spec (bindDefault bindIPv4 : Nat → Bool) (r : PortRange)
    (hstep : 0 < r.step) :
    (∀ p, findAvailablePort (isPortAvailable bindDefault bindIPv4) r = .ok p →
      bindDefault p = true ∧ bindIPv4 p = true ∧ p < r.stop ∧
      ∃ k, p = r.start + k * r.step ∧
        ∀ j < k, isPortAvailable bindDefault bindIPv4 (r.start + j * r.step) = false) ∧
    ((∀ k, r.start + k * r.step < r.stop →
        isPortAvailable bindDefault bindIPv4 (r.start + k * r.step) = false) ↔
      findAvailablePort (isPortAvailable bindDefault bindIPv4) r =
        .error (exhaustionMessage r.start r.stop r.step)) := by
  constructor
  · intro p hok
    rw [findAvailablePort] at hok
    cases hloop : findPortLoop (isPortAvailable bindDefault bindIPv4) r.stop r.step
        (r.stop - r.start) r.start with
    | none => rw [hloop] at hok; exact absurd hok (by simp)
    | some q =>
      rw [hloop] at hok
      injection hok with hq
      obtain ⟨k, hk1, hk2, hk3, hk4⟩ :=
        findPortLoop_sound (isPortAvailable bindDefault bindIPv4) r.stop r.step
          (r.stop - r.start) r.start q hloop
      rw [isPortAvailable, Bool.and_eq_true] at hk3
      rw [← hq]
      exact ⟨hk3.1, hk3.2, hk2, k, hk1, hk4⟩
  · constructor
    · intro hall
      rw [findAvailablePort]
      rw [findPortLoop_complete (isPortAvailable bindDefault bindIPv4) r.stop r.step
        (r.stop - r.start) r.start hall]
    · intro herr
      rw [findAvailablePort] at herr
      cases hloop : findPortLoop (isPortAvailable bindDefault bindIPv4) r.stop r.step
          (r.stop - r.start) r.start with
      | some q => rw [hloop] at herr; exact absurd herr (by simp)
      | none =>
        exact findPortLoop_none_sound (isPortAvailable bindDefault bindIPv4)
          r.stop r.step hstep (r.stop - r.start) r.start (by omega) hloop

/-- Witness for `findAvailablePort_spec` on the default range
19222-19300 step 2, with 19222 failing the default bind and 19224
failing the IPv4 bind: the scan returns 19226; and with every default
bind failing the scan throws the exhaustion error. -/
theorem findAvailablePort_spec_witness :
    findAvailablePort
      (isPortAvailable (fun p => decide (p ≠ 19222)) (fun p => decide (p ≠ 19224)))
      ⟨19222, 19300, 2⟩ = .ok 19226 ∧
    (findAvailablePort (isPortAvailable (fun _ => false) (fun _ => true))
      ⟨19222, 19300, 2⟩ =
      .error (exhaustionMessage 19222 19300 2)) ∧
    (findAvailablePort
      (isPortAvailable (fun p => decide (p ≠ 19222)) (fun p => decide (p ≠ 19224)))
      ⟨19222, 19300, 2⟩).toOption.all (fun p => decide (p < 19300)) = true := by
  refine ⟨by rfl, ?_, by rfl⟩
  exact (findAvailablePort_spec (fun _ => false) (fun _ => true)
    ⟨19222, 19300, 2⟩ (by decide)).2.mp (fun k _ => rfl)
end Ports

namespace Shutdown

/-- Observable steps of the `cleanup` closure in
`serveWithExternalBrowser`.  `disconnectBrowser` is the
`browser.close()` call on the CDP-connected driver handle, which drops
the protocol connection; `terminateBrowserProcess` (killing the browser
process itself) is listed so theorems can state that cleanup never
performs it — no cleanup step signals the browser's pid. -/
inductive CleanupAction
  | clearIdleTimer
  | destroyConnections
  | closePage (name : String)
  | clearPageRegistry
  | disconnectBrowser
  | terminateBrowserProcess
  | closeHttpServer
  | unregisterEntry (port : Nat) (remaining : Nat)
  deriving DecidableEq, Repr

/-- The server-process state touched by `cleanup`: the `cleaningUp`
guard, the idle timer handle, the open-socket set, the page registry,
the driver connection, the listening HTTP server, this server's port and
the persisted server registry file. -/
structure ServerState where
  cleaningUp : Bool
  idleTimerArmed : Bool
  connections : List Nat
  pages : PageServer.Registry
  browserConnected : Bool
  httpListening : Bool
  port : Nat
  serversFile : Config.ServersFile
  deriving DecidableEq, Repr

/-- Embeds the `cleanup` closure (external-browser.ts lines 370-413): a
second entry returns immediately under the `cleaningUp` guard; the first
entry disarms the idle timer, destroys every open connection, closes
every registered page (each close is try/caught, so an already-closed
page is tolerated and the loop continues), clears the page registry,
disconnects from the browser without terminating the browser process,
stops the HTTP server, and unregisters this server's entry, logging the
remaining count returned by `unregisterServer`. -/
def cleanup (alive : Nat → Bool) (st : ServerState) :
    ServerState × List CleanupAction :=
  if st.cleaningUp then (st, [])
  else
    let unreg := Config.unregisterServer alive st.serversFile st.port
    (⟨true, false, [], [], false, false, st.port, unreg.1⟩,
      [.clearIdleTimer, .destroyConnections] ++
        st.pages.map (fun e => .closePage e.1) ++
        [.clearPageRegistry, .disconnectBrowser, .closeHttpServer,
          .unregisterEntry st.port unreg.2])

/-- A burst of `n` triggers (idle timer, signals, uncaught exception,
unhandled rejection, explicit `stop`), each of which awaits
`cleanup()`; the runtime is single-threaded, so the triggers run the
guard sequentially. -/
def runTriggers (alive : Nat → Bool) (st : ServerState) : Nat → ServerState × List CleanupAction
  | 0 => (st, [])
  | n + 1 =>
    let first := cleanup alive st
    let rest := runTriggers alive first.1 n
    (rest.1, first.2 ++ rest.2)

theorem cleanup_cleaningUp (alive : Nat → Bool) (st : ServerState) :
    (cleanup alive st).1.cleaningUp = true := by
  rw [cleanup]
  by_cases h : st.cleaningUp
  · rw [if_pos h]; exact h
  · rw [if_neg h]

theorem cleanup_of_cleaningUp (alive : Nat → Bool) (st : ServerState)
    (h : st.cleaningUp = true) : cleanup alive st = (st, []) := by
  rw [cleanup, if_pos h]

/-- C4: however many triggers fire, the cleanup body runs at most once —
a burst of `n ≥ 1` triggers is observationally identical to a single
`cleanup()` call, a state already cleaning up is left untouched with no
actions — and when the body does run it performs, in order: disarm the
idle timer, destroy all open connections, close every registered page,
clear the page registry, disconnect from the browser (never terminating
the browser process), stop the HTTP server, and unregister this server's
registry entry with the remaining-server count. -/
theorem cleanup_once_and_ordered (alive : Nat → Bool) (st : ServerState) (n : Nat) :
    (st.cleaningUp = false →
      cleanup alive st =
        (⟨true, false, [], [], false, false, st.port,
            (Config.unregisterServer alive st.serversFile st.port).1⟩,
          [.clearIdleTimer, .destroyConnections] ++
            st.pages.map (fun e => .closePage e.1) ++
            [.clearPageRegistry, .disconnectBrowser, .closeHttpServer,
              .unregisterEntry st.port
                (Config.unregisterServer alive st.serversFile st.port).2])) ∧
    (st.cleaningUp = true → cleanup alive st = (st, [])) ∧
    CleanupAction.terminateBrowserProcess ∉ (cleanup alive st).2 ∧
    (1 ≤ n → runTriggers alive st n = cleanup alive st) := by
  refine ⟨?_, cleanup_of_cleaningUp alive st, ?_, ?_⟩
  · intro h
    rw [cleanup, if_neg (by simp [h])]
  · rw [cleanup]
    by_cases h : st.cleaningUp
    · rw [if_pos h]; simp
    · rw [if_neg h]
      intro hmem
      rcases List.mem_append.mp hmem with h1 | h1
      · rcases List.mem_append.mp h1 with h2 | h2
        · simp at h2
        · rcases List.mem_map.mp h2 with ⟨e, _, he⟩
          exact absurd he (by simp)
      · simp at h1
  · intro hn
    have hstable : ∀ m (s : ServerState), s.cleaningUp = true →
        runTriggers alive s m = (s, []) := by
      intro m
      induction m with
      | zero => intro s _; rfl
      | succ m2 ih =>
        intro s hs
        rw [runTriggers]
        simp only [cleanup_of_cleaningUp alive s hs]
        rw [ih s hs]
        rfl
    cases n with
    | zero => exact absurd hn (by omega)
    | succ n2 =>
      rw [runTriggers]
      simp only [hstable n2 (cleanup alive st).1 (cleanup_cleaningUp alive st)]
      simp

/-- Witness for `cleanup_once_and_ordered`: a live server with two open
connections, two pages, an armed idle timer and a registry entry; three
concurrent triggers collapse into the single ordered trace, and the
`cleaningUp` state absorbs further triggers with no actions. -/
theorem cleanup_once_and_ordered_witness :
    runTriggers (fun _ => true)
      ⟨false, true, [10, 11], [("a", ⟨"T1"⟩), ("b", ⟨"T2"⟩)], true, true, 19222,
        [("19222", ⟨100, some 9223, none, .external, 5⟩)]⟩ 3 =
      (⟨true, false, [], [], false, false, 19222, []⟩,
        [.clearIdleTimer, .destroyConnections, .closePage "a", .closePage "b",
          .clearPageRegistry, .disconnectBrowser, .closeHttpServer,
          .unregisterEntry 19222 0]) ∧
    cleanup (fun _ => true)
      (⟨true, false, [], [], false, false, 19222, []⟩ : ServerState) =
      (⟨true, false, [], [], false, false, 19222, []⟩, []) := by
  have h := cleanup_once_and_ordered (fun _ => true)
    ⟨false, true, [10, 11], [("a", ⟨"T1"⟩), ("b", ⟨"T2"⟩)], true, true, 19222,
      [("19222", ⟨100, some 9223, none, .external, 5⟩)]⟩ 3
  have h2 := cleanup_once_and_ordered (fun _ => true)
    (⟨true, false, [], [], false, false, 19222, []⟩ : ServerState) 1
  refine ⟨?_, h2.2.1 rfl⟩
  rw [h.2.2.2 (by omega), h.1 rfl]
  rfl

end Shutdown

namespace Serve

/-- Caller options of `serveWithExternalBrowser`
(`ExternalBrowserOptions`); ports are integers so out-of-range values
below 1 are representable. -/
structure ExternalBrowserOptions where
  port : Option Int := none
  cdpPort : Option Int := none
  browserPath : Option String := none
  autoLaunch : Option Bool := none
  idleTimeout : Option Int := none
  deriving Repr

/-- The environment the startup sequence consults: the outcome
`findAvailablePort(config)` would produce, the configured `cdpPort`, the
probe result `isBrowserRunning(cdpPort)`, and the CDP endpoint the
browser reports once reachable. -/
structure ServeEnv where
  findPortResult : Except String Int
  configCdpPort : Int
  browserRunning : Bool
  wsEndpoint : String
  deriving Repr

/-- Observable startup actions of `serveWithExternalBrowser`, in program
order: stale-registry cleanup, CDP probe, detached browser launch,
endpoint poll, driver connect, HTTP listen, registry entry, port-file
write and port announcement. -/
inductive ServeAction
  | killStale
  | probeBrowser (cdpPort : Int)
  | launchBrowser (path : String) (cdpPort : Int)
  | waitCdpEndpoint
  | connectCdp
  | startHttpServer (port : Int)
  | registerEntry (port : Int) (cdpPort : Int)
  | writePortFile (port : Int)
  | outputPort (port : Int)
  deriving DecidableEq, Repr

/-- The value `serveWithExternalBrowser` resolves with. -/
structure ServeResult where
  wsEndpoint : String
  port : Int
  mode : String
  deriving DecidableEq, Repr

/-- The resolved HTTP port: `options.port ?? await findAvailablePort(config)`. -/
def resolvePort (env : ServeEnv) (options : ExternalBrowserOptions) :
    Except String Int :=
  match options.port with
  | some p => .ok p
  | none => env.findPortResult

/-- The resolved CDP port: `options.cdpPort ?? config.cdpPort`. -/
def resolveCdpPort (env : ServeEnv) (options : ExternalBrowserOptions) : Int :=
  options.cdpPort.getD env.configCdpPort

/-- Embeds the startup sequence of `serveWithExternalBrowser`
(external-browser.ts lines 161-357): clean stale registry entries,
resolve ports, validate them (port in 1..65535, cdpPort in 1..65535,
port ≠ cdpPort), then probe the browser, launch it when absent and
auto-launch has a path (failing with guidance otherwise), and finally
connect, start the HTTP server, register the server entry and announce
the port.  Returns the action trace together with the result. -/
def serveWithExternalBrowser (env : ServeEnv) (options : ExternalBrowserOptions) :
    List ServeAction × Except String ServeResult :=
  match resolvePort env options with
  | .error e => ([.killStale], .error e)
  | .ok port =>
    let cdpPort := resolveCdpPort env options
    let autoLaunch := options.autoLaunch.getD true
    if port < 1 ∨ port > 65535 then
      ([.killStale],
        .error ("Invalid port: " ++ toString port ++ ". Must be between 1 and 65535"))
    else if cdpPort < 1 ∨ cdpPort > 65535 then
      ([.killStale],
        .error ("Invalid cdpPort: " ++ toString cdpPort ++ ". Must be between 1 and 65535"))
    else if port = cdpPort then
      ([.killStale], .error "port and cdpPort must be different")
    else if ¬ env.browserRunning then
      match autoLaunch, options.browserPath with
      | true, some path =>
        ([.killStale, .probeBrowser cdpPort, .launchBrowser path cdpPort,
            .waitCdpEndpoint, .connectCdp, .startHttpServer port,
            .registerEntry port cdpPort, .writePortFile port, .outputPort port],
          .ok ⟨env.wsEndpoint, port, "external-browser"⟩)
      | true, none =>
        ([.killStale, .probeBrowser cdpPort],
          .error ("Browser not running on port " ++ toString cdpPort ++
            " and no browserPath provided for auto-launch. Either start the browser " ++
            "manually with --remote-debugging-port=" ++ toString cdpPort ++
            " or provide browserPath."))
      | false, _ =>
        ([.killStale, .probeBrowser cdpPort],
          .error ("Browser not running on port " ++ toString cdpPort ++
            ". Start it with --remote-debugging-port=" ++ toString cdpPort))
    else
      ([.killStale, .probeBrowser cdpPort, .waitCdpEndpoint, .connectCdp,
          .startHttpServer port, .registerEntry port cdpPort, .writePortFile port,
          .outputPort port],
        .ok ⟨env.wsEndpoint, port, "external-browser"⟩)

/-- C10: when the resolved HTTP port or resolved cdpPort is outside
1..65535, or the two are equal, `serveWithExternalBrowser` fails with
the corresponding descriptive error and its trace is just the
stale-registry cleanup — no browser probe or launch, no HTTP listen, no
registry entry. -/
theorem serve_port_validation (env : ServeEnv) (options : ExternalBrowserOptions)
    (p : Int) (hres : resolvePort env options = .ok p) :
    ((p < 1 ∨ p > 65535) →
      serveWithExternalBrowser env options =
        ([.killStale],
          .error ("Invalid port: " ++ toString p ++ ". Must be between 1 and 65535"))) ∧
    ((1 ≤ p ∧ p ≤ 65535) →
      (resolveCdpPort env options < 1 ∨ resolveCdpPort env options > 65535) →
      serveWithExternalBrowser env options =
        ([.killStale],
          .error ("Invalid cdpPort: " ++ toString (resolveCdpPort env options) ++
            ". Must be between 1 and 65535"))) ∧
    ((1 ≤ p ∧ p ≤ 65535) →
      (1 ≤ resolveCdpPort env options ∧ resolveCdpPort env options ≤ 65535) →
      p = resolveCdpPort env options →
      serveWithExternalBrowser env options =
        ([.killStale], .error "port and cdpPort must be different")) := by
  refine ⟨?_, ?_, ?_⟩
  · intro hbad
    rw [serveWithExternalBrowser, hres]
    simp only
    rw [if_pos hbad]
  · intro hok hbad
    rw [serveWithExternalBrowser, hres]
    simp only
    rw [if_neg (by omega), if_pos hbad]
  · intro hok hcok heq
    rw [serveWithExternalBrowser, hres]
    simp only
    rw [if_neg (by omega), if_neg (by omega), if_pos heq]

/-- Witness for `serve_port_validation`: explicit option port 70000 is
rejected, cdpPort 0 is rejected, and equal port/cdpPort 9222 is
rejected, each with the trace containing only the stale cleanup. -/
theorem serve_port_validation_witness :
    serveWithExternalBrowser ⟨.ok 19222, 9223, true, "ws"⟩
      ⟨some 70000, none, none, none, none⟩ =
      ([.killStale], .error "Invalid port: 70000. Must be between 1 and 65535") ∧
    serveWithExternalBrowser ⟨.ok 19222, 9223, true, "ws"⟩
      ⟨some 19222, some 0, none, none, none⟩ =
      ([.killStale], .error "Invalid cdpPort: 0. Must be between 1 and 65535") ∧
    serveWithExternalBrowser ⟨.ok 19222, 9223, true, "ws"⟩
      ⟨some 9222, some 9222, none, none, none⟩ =
      ([.killStale], .error "port and cdpPort must be different") := by
  refine ⟨?_, ?_, ?_⟩
  · exact (serve_port_validation ⟨.ok 19222, 9223, true, "ws"⟩
      ⟨some 70000, none, none, none, none⟩ 70000 rfl).1 (by omega)
  · exact (serve_port_validation ⟨.ok 19222, 9223, true, "ws"⟩
      ⟨some 19222, some 0, none, none, none⟩ 19222 rfl).2.1 (by omega)
      (by simp [resolveCdpPort])
  · exact (serve_port_validation ⟨.ok 19222, 9223, true, "ws"⟩
      ⟨some 9222, some 9222, none, none, none⟩ 9222 rfl).2.2 (by omega)
      (by simp [resolveCdpPort]) (by simp [resolveCdpPort])

end Serve

end DevBrowser
